import Mathlib

/-!
Shallow embedding of the response-classification engine of the
strict-effect-api-client repository.

The embedding translates, from the TypeScript source:
  * the data model (`RawResponse`, the outcome variants, the boundary
    errors) from `src/core/strict-types.ts`;
  * the dispatcher helpers (`createDispatcher`, `parseJSON`,
    `processJsonContent`) and the transport step of `executeRequest`
    from `src/shell/strict-client.ts`;
  * the generated per-operation dispatchers (`dispatcherlistPets`,
    `dispatcherdeletePet`, ...) from `src/generated/dispatch.ts`, and the
    generic switch shape they instantiate, as emitted by the generator
    script (`generate.ts`);
  * the URL building of `createStrictClient`.

Host-library leaves (`JSON.parse`, `encodeURIComponent`, the
`URLSearchParams` serializer) are abstracted as function parameters: the
theorems quantify over them, so nothing proved depends on their inner
behaviour, only on how the repository's code uses their results.
-/

namespace StrictApi

/-- A JavaScript `Error` value, reduced to the data the client code ever
stores: its message. -/
structure JsError where
  message : String
deriving Repr, DecidableEq

/-- JSON value, the result of a successful `JSON.parse`. -/
inductive Json where
  | null
  | bool (b : Bool)
  | num (n : Int)
  | str (s : String)
  | arr (elems : List Json)
  | obj (fields : List (String × Json))

/-- A value thrown by the host runtime: either a JavaScript `Error` or an
arbitrary other value (kept in its `String(value)` form, which is all the
client code ever extracts from it). -/
inductive Thrown where
  | err (e : JsError)
  | value (v : String)

/-- `error instanceof Error ? error : new Error(String(error))` — the
normalisation applied in the `catch` clauses of `executeRequest` and
`parseJSON` (strict-client.ts). -/
def normalizeThrown : Thrown → JsError
  | .err e => e
  | .value v => ⟨v⟩

/-- `RawResponse` from strict-client.ts: status code, headers, body text.
Headers are modelled as a list of name/value pairs with the
case-insensitive lookup the native `Headers.get` performs. -/
structure RawResponse where
  status : Nat
  headers : List (String × String)
  text : String

/-- ASCII lower-casing of a character, as header-name comparison uses. -/
def lowerChar (c : Char) : Char :=
  if 'A' ≤ c ∧ c ≤ 'Z' then Char.ofNat (c.toNat + 32) else c

/-- ASCII lower-casing of a string. -/
def lowerStr (s : String) : String := ⟨s.data.map lowerChar⟩

/-- `response.headers.get(name) ?? undefined`: case-insensitive header
lookup, `none` when the header is absent. -/
def headersGet (hs : List (String × String)) (name : String) : Option String :=
  (hs.find? (fun p => lowerStr p.fst == lowerStr name)).map Prod.snd

/-- The value a dispatcher produces, flattened from the Effect success and
failure channels of `Dispatcher<Responses>` (strict-client.ts /
strict-types.ts).  `ok` is the correlated record `{status, contentType,
body}` (body `none` models `undefined` for no-content statuses); the other
variants are the boundary errors `UnexpectedStatus`,
`UnexpectedContentType`, `ParseError` and `DecodeError` with exactly the
fields of strict-types.ts. -/
inductive Outcome where
  | ok (status : Nat) (contentType : String) (body : Option Json)
  | unexpectedStatus (status : Nat) (body : String)
  | unexpectedContentType (status : Nat) (expected : List String)
      (actual : Option String) (body : String)
  | parseError (status : Nat) (contentType : String) (error : JsError) (body : String)
  | decodeError (status : Nat) (contentType : String) (error : JsError) (body : String)

/-- `DecodeError` record from strict-types.ts, as produced by a decoder. -/
structure DecodeFailure where
  status : Nat
  contentType : String
  error : JsError
  body : String

/-- Decoder contract from strict-client.ts / decoders.ts:
`(status, contentType, body, parsed) → Effect<D, DecodeError>`. -/
def Decoder : Type := Nat → String → String → Json → Except DecodeFailure Json

/-- The generated decoder stubs (decoders.ts): always succeed with the
parsed value. -/
def decoderStub : Decoder := fun _ _ _ parsed => .ok parsed

/-- `ParseError` record from strict-types.ts. -/
structure ParseFailure where
  status : Nat
  contentType : String
  error : JsError
  body : String

/-- `parseJSON` from strict-client.ts: run `JSON.parse` (abstracted as the
`parse` argument), wrapping a thrown value into a `ParseError` that keeps
the original text as `body`.  The host parser either returns a `Json`
value or throws. -/
def parseJSON (parse : String → Except Thrown Json)
    (status : Nat) (contentType : String) (text : String) :
    Except ParseFailure Json :=
  match parse text with
  | .ok j => .ok j
  | .error e => .error ⟨status, contentType, normalizeThrown e, text⟩

/-- `leadsWith p l`: `l` starts with `p` (character lists). -/
def leadsWith : List Char → List Char → Bool
  | [], _ => true
  | _ :: _, [] => false
  | a :: as, b :: bs => a == b && leadsWith as bs

/-- `containsSeq p l`: `p` occurs contiguously inside `l`.  This is the
semantics of JavaScript `String.prototype.includes` used by the generated
content-type check `contentType?.includes("application/json")`. -/
def containsSeq (pat : List Char) : List Char → Bool
  | [] => leadsWith pat []
  | c :: cs => leadsWith pat (c :: cs) || containsSeq pat cs

/-- The content-type check emitted by the generator (generate.ts):
`contentType?.includes("application/json")` when the declared type is
`application/json`, strict equality `contentType === ct` otherwise; an
absent header never matches. -/
def ctCheck (declared : String) (actual : Option String) : Bool :=
  if declared == "application/json" then
    match actual with
    | some a => containsSeq "application/json".data a.data
    | none => false
  else
    match actual with
    | some a => a == declared
    | none => false

/-- One `case` of a generated dispatcher switch: a declared status with
either no content (`none`, e.g. 204) or a list of declared content types,
each paired with its decoder. -/
structure StatusEntry where
  status : Nat
  content : Option (List (String × Decoder))

/-- Lookup of the switch case matching the response status. -/
def declaredEntry (table : List StatusEntry) (status : Nat) : Option StatusEntry :=
  table.find? (fun e => e.status == status)

/-- First declared content type whose check accepts the actual header, in
declaration order — the sequence of `if` checks the generator emits. -/
def findCt (cts : List (String × Decoder)) (actual : Option String) :
    Option (String × Decoder) :=
  cts.find? (fun p => ctCheck p.fst actual)

/-- The classifier body shared by every generated dispatcher
(generate.ts, instantiated in dispatch.ts): switch on status, check the
declared content types, parse, decode, and build the correlated record;
each failing check stops with its boundary error. -/
def classify (parse : String → Except Thrown Json) (table : List StatusEntry)
    (status : Nat) (contentType : Option String) (text : String) : Outcome :=
  match declaredEntry table status with
  | none => .unexpectedStatus status text
  | some entry =>
    match entry.content with
    | none => .ok status "none" none
    | some cts =>
      match findCt cts contentType with
      | none => .unexpectedContentType status (cts.map Prod.fst) contentType text
      | some (ct, dec) =>
        match parseJSON parse status ct text with
        | .error f => .parseError f.status f.contentType f.error f.body
        | .ok parsed =>
          match dec status ct text parsed with
          | .error f => .decodeError f.status f.contentType f.error f.body
          | .ok decoded => .ok status ct (some decoded)

/-- `createDispatcher` from strict-client.ts: read the content-type header
(`?? undefined`) and hand status, header and text to the classifier. -/
def createDispatcher (classifyFn : Nat → Option String → String → Outcome)
    (response : RawResponse) : Outcome :=
  classifyFn response.status (headersGet response.headers "content-type") response.text

/-- `processJsonContent` from dispatch.ts: the single-content-type JSON
branch used by the hand-instantiated dispatchers. -/
def processJsonContent (parse : String → Except Thrown Json)
    (status : Nat) (contentType : Option String) (text : String)
    (decoder : Decoder) : Outcome :=
  if (match contentType with
      | some a => containsSeq "application/json".data a.data
      | none => false) then
    match parseJSON parse status "application/json" text with
    | .error f => .parseError f.status f.contentType f.error f.body
    | .ok parsed =>
      match decoder status "application/json" text parsed with
      | .error f => .decodeError f.status f.contentType f.error f.body
      | .ok decoded => .ok status "application/json" (some decoded)
  else
    .unexpectedContentType status ["application/json"] contentType text

/-- Decoder stub `decodelistPets_200` (decoders.ts). -/
def decodelistPets_200 : Decoder := decoderStub

/-- Decoder stub `decodelistPets_500` (decoders.ts). -/
def decodelistPets_500 : Decoder := decoderStub

/-- Decoder stub `decodedeletePet_404` (decoders.ts). -/
def decodedeletePet_404 : Decoder := decoderStub

/-- Decoder stub `decodedeletePet_500` (decoders.ts). -/
def decodedeletePet_500 : Decoder := decoderStub

/-- `dispatcherlistPets` from dispatch.ts: statuses 200 and 500, both
`application/json`, default branch `unexpectedStatus`. -/
def dispatcherlistPets (parse : String → Except Thrown Json) :
    RawResponse → Outcome :=
  createDispatcher (fun status contentType text =>
    match status with
    | 200 => processJsonContent parse 200 contentType text decodelistPets_200
    | 500 => processJsonContent parse 500 contentType text decodelistPets_500
    | _ => .unexpectedStatus status text)

/-- `dispatcherdeletePet` from dispatch.ts: status 204 succeeds at once
with `{status: 204, contentType: "none", body: undefined}`; 404 and 500
are JSON branches; default is `unexpectedStatus`. -/
def dispatcherdeletePet (parse : String → Except Thrown Json) :
    RawResponse → Outcome :=
  createDispatcher (fun status contentType text =>
    match status with
    | 204 => .ok 204 "none" none
    | 404 => processJsonContent parse 404 contentType text decodedeletePet_404
    | 500 => processJsonContent parse 500 contentType text decodedeletePet_500
    | _ => .unexpectedStatus status text)

/-- The schema table of the generated `listPets` switch (statuses 200 and
500, each declared `application/json`). -/
def listPetsTable : List StatusEntry :=
  [⟨200, some [("application/json", decodelistPets_200)]⟩,
   ⟨500, some [("application/json", decodelistPets_500)]⟩]

/-- The schema table of the generated `deletePet` switch (204 with no
content, 404 and 500 declared `application/json`). -/
def deletePetTable : List StatusEntry :=
  [⟨204, none⟩,
   ⟨404, some [("application/json", decodedeletePet_404)]⟩,
   ⟨500, some [("application/json", decodedeletePet_500)]⟩]

/-- Result of `executeRequest`: either the dispatcher's classified outcome
or a `TransportError` carrying the normalised cause. -/
inductive ApiResult where
  | outcome (o : Outcome)
  | transportError (error : JsError)

/-- `executeRequest` from strict-client.ts, after the transport step is
represented by its result: the awaited fetch-and-read-text either yields a
`RawResponse` or throws, and the surrounding
`Effect.tryPromise`/`Effect.mapError` turns every thrown value into
`TransportError{error}`; a received response is handed to the
dispatcher. -/
def executeRequest (transport : Except Thrown RawResponse)
    (dispatcher : RawResponse → Outcome) : ApiResult :=
  match transport with
  | .error e => .transportError (normalizeThrown e)
  | .ok response => .outcome (dispatcher response)

/-- The literal union of statuses `200 | 201 | 202 | 203 | 204 | 205 |
206 | 207 | 208 | 226` that `SuccessVariants` (strict-types.ts) treats as
success; every other declared status falls into `HttpErrorVariants`. -/
def successStatusLiterals : List Nat :=
  [200, 201, 202, 203, 204, 205, 206, 207, 208, 226]

/-- Whether a declared status is put on the `Success` side by
strict-types.ts (membership in the literal union). -/
def variantIsSuccess (status : Nat) : Bool :=
  successStatusLiterals.contains status

/-- Modelled from the spec: "wrap the decoded value as `Success` if status
is in [200,299], else `HttpError`" — the success test the spec describes,
kept separate for comparison with `variantIsSuccess`. -/
def specSuccessRange (status : Nat) : Bool :=
  200 ≤ status && status ≤ 299

/-- `replaceOnce pat rep s`: JavaScript `s.replace(pat, rep)` with a
string pattern — replaces only the first occurrence of `pat`, returns `s`
unchanged when `pat` does not occur. -/
def replaceOnce (pat rep : List Char) : List Char → List Char
  | [] => if pat.isEmpty then rep else []
  | c :: cs =>
    if leadsWith pat (c :: cs) then rep ++ (c :: cs).drop pat.length
    else c :: replaceOnce pat rep cs

/-- `String`-level wrapper for `replaceOnce`. -/
def strReplaceOnce (s pat rep : String) : String :=
  ⟨replaceOnce pat.data rep.data s.data⟩

/-- The `URLSearchParams` serialisation of the query pairs, with the
component encoder abstracted as `encQ`. -/
def serializeQuery (encQ : String → String) (qs : List (String × String)) : String :=
  String.intercalate "&" (qs.map (fun kv => encQ kv.fst ++ "=" ++ encQ kv.snd))

/-- URL building of `makeRequest` in `createStrictClient`
(strict-client.ts): start from `baseUrl + path`, then for each path
parameter run `url.replace("{key}", encodeURIComponent(String(value)))`
(the host encoder abstracted as `enc`, values already stringified), then
append `"?" + params.toString()` when query parameters are given. -/
def makeRequestUrl (enc encQ : String → String) (baseUrl path : String)
    (params : Option (List (String × String)))
    (query : Option (List (String × String))) : String :=
  let url := baseUrl ++ path
  let url :=
    match params with
    | none => url
    | some ps =>
      ps.foldl (fun u kv => strReplaceOnce u ("\x7b" ++ kv.fst ++ "\x7d") (enc kv.snd)) url
  match query with
  | none => url
  | some qs => url ++ "?" ++ serializeQuery encQ qs

/-- A path template split at its parameter placeholders: each item holds
the literal segment before one placeholder together with that parameter's
key and value, and `tail` is the rest of the template after the last
placeholder.  `templatePath items tail` rebuilds the template itself. -/
def templatePath (items : List (String × String × String)) (tail : String) : String :=
  match items with
  | [] => tail
  | it :: rest => it.fst ++ "\x7b" ++ it.snd.fst ++ "\x7d" ++ templatePath rest tail

/-- The URL path the amended substitution claim describes: every
placeholder of `templatePath items tail` replaced by the encoded value of
its parameter, the segments and the tail kept as they are. -/
def substitutedPath (enc : String → String)
    (items : List (String × String × String)) (tail : String) : String :=
  match items with
  | [] => tail
  | it :: rest => it.fst ++ enc it.snd.snd ++ substitutedPath enc rest tail

/-- A concrete sample parser standing in for `JSON.parse` in witnesses:
accepts `"[]"`, throws a `SyntaxError`-like value on anything else. -/
def sampleParse : String → Except Thrown Json := fun s =>
  if s == "[]" then .ok (.arr []) else .error (.err ⟨"Unexpected token in JSON"⟩)

/-- The decision conditions of the classifier, written as a relation: each
constructor carries the guards under which the generated dispatcher
produces the corresponding outcome (status lookup, content-type check,
parse, decode, in that order).  Used to state that the checks are mutually
exclusive and collectively exhaustive. -/
inductive Produces (parse : String → Except Thrown Json) (table : List StatusEntry)
    (status : Nat) (ct : Option String) (text : String) : Outcome → Prop where
  | unknownStatus :
      declaredEntry table status = none →
      Produces parse table status ct text (.unexpectedStatus status text)
  | noBody (entry : StatusEntry) :
      declaredEntry table status = some entry →
      entry.content = none →
      Produces parse table status ct text (.ok status "none" none)
  | ctMismatch (entry : StatusEntry) (cts : List (String × Decoder)) :
      declaredEntry table status = some entry →
      entry.content = some cts →
      findCt cts ct = none →
      Produces parse table status ct text
        (.unexpectedContentType status (cts.map Prod.fst) ct text)
  | parseFail (entry : StatusEntry) (cts : List (String × Decoder))
      (c : String) (d : Decoder) (e : Thrown) :
      declaredEntry table status = some entry →
      entry.content = some cts →
      findCt cts ct = some (c, d) →
      parse text = .error e →
      Produces parse table status ct text
        (.parseError status c (normalizeThrown e) text)
  | decodeFail (entry : StatusEntry) (cts : List (String × Decoder))
      (c : String) (d : Decoder) (p : Json) (f : DecodeFailure) :
      declaredEntry table status = some entry →
      entry.content = some cts →
      findCt cts ct = some (c, d) →
      parse text = .ok p →
      d status c text p = .error f →
      Produces parse table status ct text
        (.decodeError f.status f.contentType f.error f.body)
  | decoded (entry : StatusEntry) (cts : List (String × Decoder))
      (c : String) (d : Decoder) (p : Json) (v : Json) :
      declaredEntry table status = some entry →
      entry.content = some cts →
      findCt cts ct = some (c, d) →
      parse text = .ok p →
      d status c text p = .ok v →
      Produces parse table status ct text (.ok status c (some v))

theorem classify_eq_iff (parse : String → Except Thrown Json)
    (table : List StatusEntry) (status : Nat) (ct : Option String) (text : String)
    (o : Outcome) :
    classify parse table status ct text = o ↔ Produces parse table status ct text o := by
  constructor
  · intro h
    subst h
    rcases hE : declaredEntry table status with _ | entry
    · simp only [classify, hE]
      exact .unknownStatus hE
    · rcases hC : entry.content with _ | cts
      · simp only [classify, hE, hC]
        exact .noBody entry hE hC
      · rcases hF : findCt cts ct with _ | ⟨c, d⟩
        · simp only [classify, hE, hC, hF]
          exact .ctMismatch entry cts hE hC hF
        · rcases hP : parse text with e | p
          · simp only [classify, hE, hC, hF, parseJSON, hP]
            exact .parseFail entry cts c d e hE hC hF hP
          · rcases hD : d status c text p with f | v
            · simp only [classify, hE, hC, hF, parseJSON, hP, hD]
              exact .decodeFail entry cts c d p f hE hC hF hP hD
            · simp only [classify, hE, hC, hF, parseJSON, hP, hD]
              exact .decoded entry cts c d p v hE hC hF hP hD
  · intro h
    cases h with
    | unknownStatus h1 =>
      simp only [classify, h1]
    | noBody entry h1 h2 =>
      simp only [classify, h1, h2]
    | ctMismatch entry cts h1 h2 h3 =>
      simp only [classify, h1, h2, h3]
    | parseFail entry cts c d e h1 h2 h3 h4 =>
      simp only [classify, h1, h2, h3, parseJSON, h4]
    | decodeFail entry cts c d p f h1 h2 h3 h4 h5 =>
      simp only [classify, h1, h2, h3, parseJSON, h4, h5]
    | decoded entry cts c d p v h1 h2 h3 h4 h5 =>
      simp only [classify, h1, h2, h3, parseJSON, h4, h5]

/-- Claim C1: for every raw response and schema table the classifier's
decision conditions hold of exactly one outcome — they are mutually
exclusive and collectively exhaustive — and the outcome the dispatcher
returns is the one they determine. -/
theorem dispatcher_exactly_one_outcome (parse : String → Except Thrown Json)
    (table : List StatusEntry) (response : RawResponse) :
    (∃! o : Outcome,
      Produces parse table response.status
        (headersGet response.headers "content-type") response.text o)
    ∧ Produces parse table response.status
        (headersGet response.headers "content-type") response.text
        (createDispatcher (classify parse table) response) := by
  constructor
  · refine ⟨classify parse table response.status
      (headersGet response.headers "content-type") response.text, ?_, ?_⟩
    · exact (classify_eq_iff parse table response.status
        (headersGet response.headers "content-type") response.text _).mp rfl
    · intro y hy
      exact ((classify_eq_iff parse table response.status
        (headersGet response.headers "content-type") response.text y).mpr hy).symm
  · exact (classify_eq_iff parse table response.status
      (headersGet response.headers "content-type") response.text _).mp rfl

/-- Claim C2: the decision sequence is strictly ordered — an undeclared
status yields `UnexpectedStatus` whatever the content type, body or
parser behave like, and a declared status whose content-type header
matches no declared content type yields `UnexpectedContentType` whatever
the parser and decoders would do with the body. -/
theorem classify_priority_order (parse : String → Except Thrown Json)
    (table : List StatusEntry) (status : Nat) (ct : Option String) (text : String) :
    (declaredEntry table status = none →
      classify parse table status ct text = .unexpectedStatus status text)
    ∧ (∀ entry cts, declaredEntry table status = some entry →
        entry.content = some cts →
        findCt cts ct = none →
        classify parse table status ct text
          = .unexpectedContentType status (cts.map Prod.fst) ct text) := by
  constructor
  · intro h
    simp only [classify, h]
  · intro entry cts h1 h2 h3
    simp only [classify, h1, h2, h3]

/-- Witness for C2: status 418 against the listPets table is classified
`UnexpectedStatus`, and a declared status 200 with header `text/html` is
classified `UnexpectedContentType`, both with a parser that would accept
the body. -/
theorem classify_priority_order_witness :
    classify sampleParse listPetsTable 418 (some "application/json") "[]"
        = .unexpectedStatus 418 "[]"
    ∧ classify sampleParse listPetsTable 200 (some "text/html") "[]"
        = .unexpectedContentType 200 ["application/json"] (some "text/html") "[]" :=
  ⟨(classify_priority_order sampleParse listPetsTable 418 (some "application/json") "[]").1 rfl,
   (classify_priority_order sampleParse listPetsTable 200 (some "text/html") "[]").2
     ⟨200, some [("application/json", decodelistPets_200)]⟩
     [("application/json", decodelistPets_200)] rfl rfl rfl⟩

theorem leadsWith_iff (p : List Char) :
    ∀ l, leadsWith p l = true ↔ ∃ t, p ++ t = l := by
  induction p with
  | nil =>
    intro l
    simp [leadsWith]
  | cons a as ih =>
    intro l
    cases l with
    | nil => simp [leadsWith]
    | cons b bs =>
      simp only [leadsWith, Bool.and_eq_true, beq_iff_eq, ih bs,
        List.cons_append, List.cons.injEq]
      constructor
      · rintro ⟨hab, t, ht⟩
        exact ⟨t, hab, ht⟩
      · rintro ⟨t, hab, ht⟩
        exact ⟨hab, t, ht⟩

theorem containsSeq_iff (p l : List Char) :
    containsSeq p l = true ↔ ∃ u v, u ++ p ++ v = l := by
  induction l with
  | nil =>
    simp [containsSeq, leadsWith_iff]
  | cons c cs ih =>
    simp only [containsSeq, Bool.or_eq_true, leadsWith_iff p, ih]
    constructor
    · rintro (⟨t, ht⟩ | ⟨u, v, huv⟩)
      · exact ⟨[], t, by simpa using ht⟩
      · refine ⟨c :: u, v, ?_⟩
        simpa using huv
    · rintro ⟨u, v, huv⟩
      cases u with
      | nil =>
        left
        exact ⟨v, by simpa using huv⟩
      | cons x xs =>
        right
        simp only [List.cons_append, List.cons.injEq] at huv
        exact ⟨xs, v, huv.2⟩

/-- Counterexample to C3: the code's check is a case-sensitive substring
test, so `Application/JSON; charset=utf-8` — which the claim says must
match — is rejected as `UnexpectedContentType`, while
`application/json-patch+json` — which the claim says must not match — is
accepted. -/
theorem contentType_match_counterexample :
    processJsonContent sampleParse 200 (some "Application/JSON; charset=utf-8") "[]"
        decodelistPets_200
      = .unexpectedContentType 200 ["application/json"]
          (some "Application/JSON; charset=utf-8") "[]"
    ∧ ctCheck "application/json" (some "application/json-patch+json") = true :=
  ⟨rfl, rfl⟩

/-- Claim C3 (amended): for a declared `application/json` entry, the
content-type step accepts a header value exactly when it contains the
exact string `application/json` as a contiguous substring — a
case-sensitive containment test with no parameter stripping — so
`application/json; charset=utf-8` and `application/json-patch+json`
match while `Application/JSON; charset=utf-8` does not. -/
theorem contentType_substring_semantics (a : String) :
    (ctCheck "application/json" (some a) = true ↔
      ∃ u v, u ++ "application/json".data ++ v = a.data)
    ∧ ctCheck "application/json" (some "application/json; charset=utf-8") = true
    ∧ ctCheck "application/json" (some "Application/JSON; charset=utf-8") = false
    ∧ ctCheck "application/json" (some "application/json-patch+json") = true := by
  refine ⟨?_, rfl, rfl, rfl⟩
  have h : ctCheck "application/json" (some a)
      = containsSeq "application/json".data a.data := by
    simp [ctCheck]
  rw [h]
  exact containsSeq_iff _ _

/-- Claim C4, evaluated at the failing input: the type layer marks a
declared status as `Success` only when it lies in the literal union
`200-208, 226`, so the declared statuses 209 and 299 — inside the
spec's [200,299] success range — land on the `HttpError` side. -/
theorem successVariants_literal_gap :
    variantIsSuccess 209 = false ∧ specSuccessRange 209 = true
    ∧ variantIsSuccess 299 = false ∧ specSuccessRange 299 = true
    ∧ variantIsSuccess 226 = true := by decide

/-- Claim C5: the transport step of `executeRequest` resolves every
possible transport result — a thrown fault becomes a `TransportError`
whose cause is the normalised thrown value (an `Error` cause is kept
as-is), and a received response is classified by the dispatcher; no third
possibility exists. -/
theorem executeRequest_total (transport : Except Thrown RawResponse)
    (dispatcher : RawResponse → Outcome) :
    ((∃ e, transport = .error e
        ∧ executeRequest transport dispatcher = .transportError (normalizeThrown e))
      ∨ (∃ r, transport = .ok r
        ∧ executeRequest transport dispatcher = .outcome (dispatcher r)))
    ∧ ∀ e, executeRequest (.error (.err e)) dispatcher = .transportError e := by
  refine ⟨?_, fun e => rfl⟩
  cases transport with
  | error e => exact .inl ⟨e, rfl, rfl⟩
  | ok r => exact .inr ⟨r, rfl, rfl⟩

/-- Claim C6: when a declared status's content-type check fails, the
resulting `UnexpectedContentType` carries the full declared content-type
set for that status as `expected`, the received header value as `actual`,
and the raw body text. -/
theorem unexpectedContentType_field_contents (parse : String → Except Thrown Json)
    (table : List StatusEntry) (status : Nat) (ct : Option String) (text : String)
    (entry : StatusEntry) (cts : List (String × Decoder))
    (h1 : declaredEntry table status = some entry)
    (h2 : entry.content = some cts)
    (h3 : findCt cts ct = none) :
    classify parse table status ct text
      = .unexpectedContentType status (cts.map Prod.fst) ct text := by
  simp only [classify, h1, h2, h3]

/-- Witness for C6: status 404 of the deletePet table with header
`text/plain`. -/
theorem unexpectedContentType_field_contents_witness :
    classify sampleParse deletePetTable 404 (some "text/plain") "oops"
      = .unexpectedContentType 404 ["application/json"] (some "text/plain") "oops" :=
  unexpectedContentType_field_contents sampleParse deletePetTable 404
    (some "text/plain") "oops"
    ⟨404, some [("application/json", decodedeletePet_404)]⟩
    [("application/json", decodedeletePet_404)] rfl rfl rfl

/-- Claim C7: when the matched content type's body fails to parse, the
classifier returns `ParseError` whose body field is the original text
unchanged and whose cause is the (always present) normalised thrown
value. -/
theorem parseError_verbatim_body (parse : String → Except Thrown Json)
    (table : List StatusEntry) (status : Nat) (ct : Option String) (text : String)
    (entry : StatusEntry) (cts : List (String × Decoder))
    (c : String) (d : Decoder) (e : Thrown)
    (h1 : declaredEntry table status = some entry)
    (h2 : entry.content = some cts)
    (h3 : findCt cts ct = some (c, d))
    (h4 : parse text = .error e) :
    classify parse table status ct text
      = .parseError status c (normalizeThrown e) text := by
  simp only [classify, h1, h2, h3, parseJSON, h4]

/-- Witness for C7: a malformed body under status 200 of the listPets
table yields a `ParseError` carrying the body verbatim. -/
theorem parseError_verbatim_body_witness :
    classify sampleParse listPetsTable 200 (some "application/json") "not json"
      = .parseError 200 "application/json" ⟨"Unexpected token in JSON"⟩ "not json" :=
  parseError_verbatim_body sampleParse listPetsTable 200 (some "application/json")
    "not json" ⟨200, some [("application/json", decodelistPets_200)]⟩
    [("application/json", decodelistPets_200)] "application/json" decodelistPets_200
    (.err ⟨"Unexpected token in JSON"⟩) rfl rfl rfl rfl

/-- Claim C8: classification is a function of the status, the
content-type header lookup, and the body text alone — two raw responses
agreeing on those three are classified identically, with no hidden
state. -/
theorem classify_deterministic (parse : String → Except Thrown Json)
    (table : List StatusEntry) (r1 r2 : RawResponse)
    (hs : r1.status = r2.status)
    (hh : headersGet r1.headers "content-type" = headersGet r2.headers "content-type")
    (ht : r1.text = r2.text) :
    createDispatcher (classify parse table) r1
      = createDispatcher (classify parse table) r2 := by
  simp only [createDispatcher, hs, hh, ht]

/-- Witness for C8: the same logical response presented with different
header casing and an extra header classifies identically. -/
theorem classify_deterministic_witness :
    createDispatcher (classify sampleParse listPetsTable)
        ⟨200, [("Content-Type", "application/json")], "[]"⟩
      = createDispatcher (classify sampleParse listPetsTable)
        ⟨200, [("content-type", "application/json"), ("x-extra", "1")], "[]"⟩ :=
  classify_deterministic sampleParse listPetsTable
    ⟨200, [("Content-Type", "application/json")], "[]"⟩
    ⟨200, [("content-type", "application/json"), ("x-extra", "1")], "[]"⟩
    rfl (by decide) rfl

theorem leadsWith_self (p t : List Char) : leadsWith p (p ++ t) = true := by
  induction p with
  | nil => rfl
  | cons a as ih => simp [leadsWith, ih]

theorem drop_len_append (p t : List Char) : (p ++ t).drop p.length = t := by
  induction p with
  | nil => rfl
  | cons a as ih => simp [ih]

theorem replaceOnce_head_match (pat rep : List Char) (c : Char) (cs : List Char)
    (h : leadsWith pat (c :: cs) = true) :
    replaceOnce pat rep (c :: cs) = rep ++ (c :: cs).drop pat.length := by
  simp [replaceOnce, h]

theorem replaceOnce_head_miss (pat rep : List Char) (c : Char) (cs : List Char)
    (h : leadsWith pat (c :: cs) = false) :
    replaceOnce pat rep (c :: cs) = c :: replaceOnce pat rep cs := by
  simp [replaceOnce, h]

theorem replaceOnce_left_clean (patTail rep s2 : List Char) :
    ∀ s1 : List Char, '{' ∉ s1 →
      replaceOnce ('{' :: patTail) rep (s1 ++ ('{' :: patTail) ++ s2)
        = s1 ++ rep ++ s2 := by
  intro s1
  induction s1 with
  | nil =>
    intro _
    have h1 : leadsWith ('{' :: patTail) ('{' :: (patTail ++ s2)) = true :=
      leadsWith_self ('{' :: patTail) s2
    have h2 : ('{' :: (patTail ++ s2)).drop (('{' :: patTail).length) = s2 :=
      drop_len_append ('{' :: patTail) s2
    rw [List.nil_append, List.nil_append, List.cons_append,
      replaceOnce_head_match _ _ _ _ h1, h2]
  | cons x xs ih =>
    intro hmem
    have hx : ¬ ('{' = x) := fun hh => hmem (hh ▸ List.mem_cons_self _ _)
    have hxs : '{' ∉ xs := fun hm => hmem (List.mem_cons_of_mem _ hm)
    have hbeq : ('{' == x) = false := by
      simp only [beq_eq_false_iff_ne, ne_eq]
      exact hx
    have h1 : leadsWith ('{' :: patTail) (x :: (xs ++ ('{' :: patTail) ++ s2)) = false := by
      simp [leadsWith, hbeq]
    rw [List.cons_append, List.cons_append, replaceOnce_head_miss _ _ _ _ h1, ih hxs]
    simp [List.cons_append]

/-- Counterexample to C9: with two occurrences of the placeholder
`petId` in the path template, only the first is substituted — the built
URL still contains the literal placeholder, instead of the claimed
substitution of every occurrence. -/
theorem url_substitution_counterexample :
    makeRequestUrl (fun s => s) (fun s => s) "https://api.example.com"
        "/pets/{petId}/{petId}" (some [("petId", "42")]) none
      = "https://api.example.com/pets/42/{petId}"
    ∧ makeRequestUrl (fun s => s) (fun s => s) "https://api.example.com"
        "/pets/{petId}/{petId}" (some [("petId", "42")]) none
      ≠ "https://api.example.com/pets/42/42" :=
  ⟨rfl, by decide⟩

theorem strReplaceOnce_first (pre k suffix rep : String) (h : '{' ∉ pre.data) :
    strReplaceOnce (pre ++ ("\x7b" ++ k ++ "\x7d") ++ suffix) ("\x7b" ++ k ++ "\x7d") rep
      = pre ++ rep ++ suffix := by
  apply String.ext
  show replaceOnce ("\x7b" ++ k ++ "\x7d").data rep.data
      (pre ++ ("\x7b" ++ k ++ "\x7d") ++ suffix).data
    = (pre ++ rep ++ suffix).data
  have hpat : ("\x7b" ++ k ++ "\x7d").data = '{' :: (k.data ++ ['}']) := by
    simp [String.data_append]
  have harg : (pre ++ ("\x7b" ++ k ++ "\x7d") ++ suffix).data
      = pre.data ++ ('{' :: (k.data ++ ['}'])) ++ suffix.data := by
    simp [String.data_append, List.append_assoc]
  have hres : (pre ++ rep ++ suffix).data = pre.data ++ rep.data ++ suffix.data := by
    simp [String.data_append]
  rw [hpat, harg, hres]
  exact replaceOnce_left_clean (k.data ++ ['}']) rep.data suffix.data pre.data h

theorem foldl_substitution (enc : String → String) :
    ∀ (items : List (String × String × String)) (pre tail : String),
      '{' ∉ pre.data →
      (∀ it ∈ items, '{' ∉ it.fst.data) →
      (∀ it ∈ items, '{' ∉ (enc it.snd.snd).data) →
      (items.map Prod.snd).foldl
          (fun u kv => strReplaceOnce u ("\x7b" ++ kv.fst ++ "\x7d") (enc kv.snd))
          (pre ++ templatePath items tail)
        = pre ++ substitutedPath enc items tail := by
  intro items
  induction items with
  | nil =>
    intro pre tail _ _ _
    rfl
  | cons it rest ih =>
    intro pre tail hpre hseg henc
    have hit : '{' ∉ it.fst.data := hseg it (List.mem_cons_self _ _)
    have hv : '{' ∉ (enc it.snd.snd).data := henc it (List.mem_cons_self _ _)
    have hpre' : '{' ∉ (pre ++ it.fst).data := by
      rw [String.data_append]
      intro hm
      rcases List.mem_append.mp hm with h1 | h2
      · exact hpre h1
      · exact hit h2
    have hpre'' : '{' ∉ (pre ++ it.fst ++ enc it.snd.snd).data := by
      rw [String.data_append]
      intro hm
      rcases List.mem_append.mp hm with h1 | h2
      · exact hpre' h1
      · exact hv h2
    have hsh : pre ++ templatePath (it :: rest) tail
        = (pre ++ it.fst) ++ ("\x7b" ++ it.snd.fst ++ "\x7d") ++ templatePath rest tail := by
      apply String.ext
      simp [templatePath, String.data_append, List.append_assoc]
    have hstep : strReplaceOnce (pre ++ templatePath (it :: rest) tail)
        ("\x7b" ++ it.snd.fst ++ "\x7d") (enc it.snd.snd)
        = (pre ++ it.fst ++ enc it.snd.snd) ++ templatePath rest tail := by
      rw [hsh, strReplaceOnce_first (pre ++ it.fst) it.snd.fst
        (templatePath rest tail) (enc it.snd.snd) hpre']
    simp only [List.map_cons, List.foldl_cons]
    rw [hstep, ih (pre ++ it.fst ++ enc it.snd.snd) tail hpre''
      (fun x hx => hseg x (List.mem_cons_of_mem _ hx))
      (fun x hx => henc x (List.mem_cons_of_mem _ hx))]
    apply String.ext
    simp [substitutedPath, String.data_append, List.append_assoc]

/-- Claim C9 (amended): for a request whose path template decomposes at
its placeholders as `templatePath items tail` — each of arbitrarily many
path parameters preceded by its literal segment, in order, with any tail
after the last placeholder — the final URL is the base URL concatenated
with the template in which the FIRST occurrence of each path parameter
placeholder is replaced by the encoded value (later occurrences, e.g. a
repeated placeholder in the tail, are left untouched), followed — when
query parameters are given — by a `?` and the serialised query
parameters.  The brace hypotheses say the placeholders written in the
template are the only braces before the substitution sites. -/
theorem url_first_occurrence_substitution (enc encQ : String → String)
    (baseUrl tail : String) (items : List (String × String × String))
    (hb : '{' ∉ baseUrl.data)
    (hseg : ∀ it ∈ items, '{' ∉ it.fst.data)
    (henc : ∀ it ∈ items, '{' ∉ (enc it.snd.snd).data) :
    makeRequestUrl enc encQ baseUrl (templatePath items tail)
        (some (items.map Prod.snd)) none
      = baseUrl ++ substitutedPath enc items tail
    ∧ ∀ qs, makeRequestUrl enc encQ baseUrl (templatePath items tail)
        (some (items.map Prod.snd)) (some qs)
      = baseUrl ++ substitutedPath enc items tail ++ "?" ++ serializeQuery encQ qs := by
  have hfold := foldl_substitution enc items baseUrl tail hb hseg henc
  constructor
  · simpa [makeRequestUrl] using hfold
  · intro qs
    simp only [makeRequestUrl]
    rw [hfold]

/-- Witness for C9 (amended): a two-parameter template
`/stores/\x7bstoreId\x7d/pets/\x7bpetId\x7d` with a repeated `petId`
placeholder in the tail; both parameters are substituted at their first
occurrence and the tail copy survives. -/
theorem url_first_occurrence_substitution_witness :
    makeRequestUrl (fun s => s) (fun s => s) "https://api.example.com"
        (templatePath [("/stores/", "storeId", "7"), ("/pets/", "petId", "42")]
          "/copy/{petId}")
        (some ([("/stores/", "storeId", "7"), ("/pets/", "petId", "42")].map Prod.snd))
        none
      = "https://api.example.com"
          ++ substitutedPath (fun s => s)
            [("/stores/", "storeId", "7"), ("/pets/", "petId", "42")] "/copy/{petId}"
    ∧ ∀ qs, makeRequestUrl (fun s => s) (fun s => s) "https://api.example.com"
        (templatePath [("/stores/", "storeId", "7"), ("/pets/", "petId", "42")]
          "/copy/{petId}")
        (some ([("/stores/", "storeId", "7"), ("/pets/", "petId", "42")].map Prod.snd))
        (some qs)
      = "https://api.example.com"
          ++ substitutedPath (fun s => s)
            [("/stores/", "storeId", "7"), ("/pets/", "petId", "42")] "/copy/{petId}"
          ++ "?" ++ serializeQuery (fun s => s) qs :=
  url_first_occurrence_substitution (fun s => s) (fun s => s)
    "https://api.example.com" "/copy/{petId}"
    [("/stores/", "storeId", "7"), ("/pets/", "petId", "42")]
    (by decide) (by decide) (by decide)

/-- Claim C10: the deletePet dispatcher classifies every response with
status 204 as `{status: 204, contentType: "none", body: undefined}`
immediately, whatever the content-type header and body text contain. -/
theorem deletePet_204_immediate (parse : String → Except Thrown Json)
    (r : RawResponse) (h : r.status = 204) :
    dispatcherdeletePet parse r = .ok 204 "none" none := by
  simp only [dispatcherdeletePet, createDispatcher, h]

/-- Witness for C10: status 204 with a non-JSON content type and a
malformed body still succeeds with the no-content record. -/
theorem deletePet_204_immediate_witness :
    dispatcherdeletePet sampleParse ⟨204, [("content-type", "text/html")], "not json"⟩
      = .ok 204 "none" none :=
  deletePet_204_immediate sampleParse
    ⟨204, [("content-type", "text/html")], "not json"⟩ rfl

end StrictApi
